import Mathlib

/-!
Shallow embedding of the Cryptique embedding-generation and vector-migration
core (`backend/python/services/embedding_generator.py` and
`backend/python/services/vector_migrator.py`), together with theorems that
settle the specification claims about it.

Modelling conventions:
* numpy float arrays are lists over `PVal`, a value domain with finite
  rationals plus the IEEE specials NaN and ±∞ (comparisons against a
  non-finite value are false, as in IEEE);
* purely numeric vectors handed to `calculate_similarity` and the optimizer
  are `List ℚ`; square roots are passed in as an explicit function argument
  so that every definition stays executable (the theorems constrain the
  argument exactly where the source relies on `sqrt`);
* the embedding providers are an oracle `Provider` mapping a model and a
  preprocessed text to either a vector or an error message, and wall-clock
  durations are explicit parameters;
* the MD5 cache key is modelled by the hashed content string itself
  (`text ++ ":" ++ model value`): the source uses the hash only as a
  content-addressed key;
* the thread pool of `_process_batch` submits one future per text in input
  order and `as_completed` yields them in an arbitrary completion order,
  modelled by an explicit `order : List ℕ` of future indices.
-/

namespace Cryptique

/-- Value domain of one numpy array component: NaN, +∞, −∞ or a finite
rational standing for the float value. -/
inductive PVal where
  | nan : PVal
  | inf : PVal
  | ninf : PVal
  | fin : ℚ → PVal
deriving DecidableEq

/-- `np.isnan` on one component. -/
def PVal.isNaN : PVal → Bool
  | .nan => true
  | _ => false

/-- `np.isinf` on one component (true for both infinities). -/
def PVal.isInf : PVal → Bool
  | .inf => true
  | .ninf => true
  | _ => false

/-- A component is finite iff it is neither NaN nor ±∞. -/
def PVal.isFinite : PVal → Bool
  | .fin _ => true
  | _ => false

/-- A numpy vector. -/
abbrev Vec := List PVal

/-- All components finite. -/
def allFinite (v : Vec) : Bool := v.all PVal.isFinite

/-- The finite components' rational values (equals the whole vector when
`allFinite v`). -/
def finPart (v : Vec) : List ℚ :=
  v.filterMap fun x => match x with | .fin q => some q | _ => none

/-- Sum of squares of a rational vector (the square of the L2 norm). -/
def sumSq (l : List ℚ) : ℚ := (l.map fun x => x * x).sum

/-- `np.mean` of a rational vector (0 on the empty vector, where numpy
would give NaN; both validator checks below reject that case anyway). -/
def meanQ (l : List ℚ) : ℚ := l.sum / l.length

/-- `np.var`: population variance, mean of squared deviations. -/
def varQ (l : List ℚ) : ℚ := ((l.map fun x => (x - meanQ l) ^ 2).sum) / l.length

/-- The supported embedding models (`EmbeddingModel` enum). -/
inductive EmbeddingModel where
  | gemini
  | openai
  | sentence_transformer
  | huggingface
  | local_model
deriving DecidableEq

/-- The enum's string value. -/
def EmbeddingModel.value : EmbeddingModel → String
  | .gemini => "gemini"
  | .openai => "openai"
  | .sentence_transformer => "sentence_transformer"
  | .huggingface => "huggingface"
  | .local_model => "local"

/-- `EmbeddingQualityValidator._get_expected_dimensions`: the dimension map
with default 768. -/
def get_expected_dimensions : EmbeddingModel → ℕ
  | .gemini => 1536
  | .openai => 3072
  | .sentence_transformer => 384
  | .huggingface => 768
  | .local_model => 768

/-- The magnitude check `0.1 < np.linalg.norm(embedding) < 10.0`.
A NaN component makes the norm NaN (both comparisons false); an infinite
component makes it +∞ (the upper comparison false).  For a finite vector
the check is equivalent to `1/100 < Σ xᵢ² < 100` because `sqrt` is
strictly monotone on nonnegatives; `magnitudeOk_iff_sqrt` below proves the
equivalence against `Real.sqrt`. -/
def magnitudeOk (v : Vec) : Bool :=
  allFinite v &&
    decide ((1 : ℚ)/100 < sumSq (finPart v) ∧ sumSq (finPart v) < 100)

/-- The variance check `np.var(embedding) > 0.001`.  Any non-finite
component makes `np.var` NaN, and a comparison against NaN is false. -/
def varianceOk (v : Vec) : Bool :=
  allFinite v && decide ((1 : ℚ)/1000 < varQ (finPart v))

/-- `EmbeddingQualityValidator.validate_embedding`: additive score over the
five checks, capped at 1.0.  (The source wraps the body in `try/except`
returning 0.0; no step of the body can raise, so the handler is dead
code in the model.) -/
def validate_embedding (embedding : Vec) (original_text : String)
    (model : EmbeddingModel) : ℚ :=
  let s0 : ℚ := 0
  let s1 := if embedding.length = get_expected_dimensions model
            then s0 + 3/10 else s0
  let s2 := if embedding.any PVal.isNaN = false ∧ embedding.any PVal.isInf = false
            then s1 + 1/5 else s1
  let s3 := if magnitudeOk embedding then s2 + 1/5 else s2
  let s4 := if varianceOk embedding then s3 + 3/20 else s3
  let s5 := if 10 < original_text.length then s4 + 3/20 else s4
  min s5 1

/-- `EmbeddingResult` dataclass (the `metadata` dict is not modelled: no
claim refers to it). -/
structure EmbeddingResult where
  success : Bool
  embedding : Option Vec := none
  model_used : Option String := none
  dimensions : Option ℕ := none
  quality_score : Option ℚ := none
  processing_time : Option ℚ := none
  error : Option String := none
deriving DecidableEq

/-- The context keys recognized by `_format_context`. -/
structure Context where
  data_type : Option String := none
  source_type : Option String := none
  timeframe : Option String := none
  importance : Option ℕ := none
deriving DecidableEq

/-- `EmbeddingGenerator._format_context`. -/
def format_context (c : Context) : String :=
  let parts :=
    (match c.data_type with
      | some d => ["Data Type: " ++ d] | none => []) ++
    (match c.source_type with
      | some s => ["Source: " ++ s] | none => []) ++
    (match c.timeframe with
      | some t => ["Timeframe: " ++ t] | none => []) ++
    (match c.importance with
      | some i => ["Importance: " ++ toString i ++ "/10"] | none => [])
  String.intercalate " | " parts

/-- Python's `str.strip()`: drop leading and trailing whitespace. -/
def pyStrip (s : String) : String :=
  ⟨((s.data.dropWhile Char.isWhitespace).reverse.dropWhile
      Char.isWhitespace).reverse⟩

/-- `EmbeddingGenerator._preprocess_text`: strip, prepend formatted
context, truncate to 8000 characters. -/
def preprocess_text (text : String) (context : Option Context) : String :=
  let processed := pyStrip text
  let processed :=
    match context with
    | some c => format_context c ++ "\n\n" ++ processed
    | none => processed
  if 8000 < processed.length then processed.take 8000 else processed

/-- A provider oracle: for a model and a preprocessed text, either the raw
vector or the error message of the exception the adapter raised. -/
abbrev Provider := EmbeddingModel → String → Except String Vec

/-- The model dispatch of `generate_embedding`: the four known models call
their provider; any other model raises
`ValueError(f"Unsupported model: {model}")` (caught by the surrounding
`except`). -/
def dispatch_model (provider : Provider) (model : EmbeddingModel)
    (text : String) : Except String Vec :=
  match model with
  | .local_model => .error ("Unsupported model: " ++ EmbeddingModel.value .local_model)
  | m => provider m text

/-- `EmbeddingGenerator._generate_cache_key`, with MD5 modelled by the
hashed content itself (the key is only ever compared for equality). -/
def generate_cache_key (text : String) (model : EmbeddingModel) : String :=
  text ++ ":" ++ model.value

/-- A document of the durable `embedding_cache` collection. -/
structure CacheDoc where
  cache_key : String
  text : String
  model : String
  embedding : Vec
  quality_score : Option ℚ := none
deriving DecidableEq

/-- Mutable state of one `EmbeddingGenerator`: the in-memory cache, the
durable cache collection, and an instrumentation counter of provider
calls (used to state that cache hits perform no provider call). -/
structure GenState where
  mem : List (String × EmbeddingResult) := []
  db : List (String × CacheDoc) := []
  provider_calls : ℕ := 0
deriving DecidableEq

/-- `EmbeddingGenerator._get_cached_embedding`: memory first, then the
durable collection (populating memory on a durable hit, with
`processing_time = 0` and quality defaulting to 0.8). -/
def get_cached_embedding (st : GenState) (text : String)
    (model : EmbeddingModel) : Option (EmbeddingResult × GenState) :=
  let key := generate_cache_key text model
  match st.mem.lookup key with
  | some r => some (r, st)
  | none =>
    match st.db.lookup key with
    | some doc =>
      let r : EmbeddingResult :=
        { success := true
          embedding := some doc.embedding
          model_used := some model.value
          dimensions := some doc.embedding.length
          quality_score := some (doc.quality_score.getD (4/5))
          processing_time := some 0 }
      some (r, { st with mem := (key, r) :: st.mem })
    | none => none

/-- `EmbeddingGenerator._cache_embedding`: write-through to both tiers
(the durable insert's possible failure is logged and swallowed in the
source and does not affect the result). -/
def cache_embedding (text : String) (model : EmbeddingModel)
    (result : EmbeddingResult) (st : GenState) : GenState :=
  let key := generate_cache_key text model
  { st with
    mem := (key, result) :: st.mem
    db := (key, { cache_key := key, text := text, model := model.value
                  embedding := result.embedding.getD []
                  quality_score := result.quality_score }) :: st.db }

/-- `EmbeddingGenerator.generate_embedding`.  `elapsed` is the wall-clock
duration `time.time() - start_time` observed when the result is built.
The whole body runs under `try/except Exception`, so the function always
returns an `EmbeddingResult`: a provider failure (or the unsupported-model
`ValueError`) becomes `success=false` with the message in `error` and
`processing_time` still recorded. -/
def generate_embedding (provider : Provider) (elapsed : ℚ) (text : String)
    (model : EmbeddingModel) (context : Option Context) (use_cache : Bool)
    (st : GenState) : EmbeddingResult × GenState :=
  let cached := if use_cache then get_cached_embedding st text model else none
  match cached with
  | some (r, st') => (r, st')
  | none =>
    let processed := preprocess_text text context
    let st' := match model with
      | .local_model => st
      | _ => { st with provider_calls := st.provider_calls + 1 }
    match dispatch_model provider model processed with
    | .error e =>
      ({ success := false, error := some e, processing_time := some elapsed }, st')
    | .ok emb =>
      let q := validate_embedding emb text model
      let r : EmbeddingResult :=
        { success := true
          embedding := some emb
          model_used := some model.value
          dimensions := some emb.length
          quality_score := some q
          processing_time := some elapsed }
      let st2 := if use_cache then cache_embedding text model r st' else st'
      (r, st2)

/-- The slicing loop `for i in range(0, len(l), b): l[i:i+b]` shared by
`generate_batch_embeddings` and the migrator methods (`b > 0` in every
call site: batch sizes come from the config and default to 100). -/
def chunkList (b : ℕ) (l : List α) : List (List α) :=
  if _h : b = 0 ∨ l.length = 0 then []
  else l.take b :: chunkList b (l.drop b)
termination_by l.length
decreasing_by
  push_neg at _h
  obtain ⟨hb, hl⟩ := _h
  simp only [List.length_drop]
  exact Nat.sub_lt (Nat.pos_of_ne_zero hl) (Nat.pos_of_ne_zero hb)

/-- `BatchEmbeddingResult` dataclass; `successful_count` is the
`metadata['successful_count']` entry. -/
structure BatchEmbeddingResult where
  success : Bool
  embeddings : List (Option Vec) := []
  failed_indices : List ℕ := []
  total_processed : ℕ := 0
  quality_scores : List ℚ := []
  errors : List String := []
  successful_count : ℕ := 0
deriving DecidableEq

/-- The futures of `_process_batch`: one `generate_embedding` per text,
submitted in input order (the shared cache state is threaded in submission
order; this choice of interleaving does not matter for the claims, which
run with caching off or with disjoint keys). -/
def run_futures (provider : Provider) (elapsed : ℚ) (model : EmbeddingModel)
    (use_cache : Bool) :
    List String → List (Option Context) → GenState →
    List EmbeddingResult × GenState
  | [], _, st => ([], st)
  | t :: ts, ctxs, st =>
    let (r, st1) :=
      generate_embedding provider elapsed t model (ctxs.head?.getD none) use_cache st
    let (rs, st2) := run_futures provider elapsed model use_cache ts ctxs.tail st1
    (r :: rs, st2)

/-- `EmbeddingGenerator._process_batch`: results are collected with
`as_completed(futures)`, i.e. in completion order — the `order` argument
lists the future indices in the order they complete (any permutation of
`0..texts.length-1` is a possible schedule).  No original index is
attached to a result. -/
def process_batch (provider : Provider) (elapsed : ℚ) (order : List ℕ)
    (texts : List String) (model : EmbeddingModel)
    (context : List (Option Context)) (use_cache : Bool) (st : GenState) :
    List EmbeddingResult × GenState :=
  let (futs, st') := run_futures provider elapsed model use_cache texts context st
  (order.filterMap (fun i => futs.get? i), st')

/-- The per-batch collection loop of `generate_batch_embeddings`
(`for j, result in enumerate(batch_results)` with batch offset `i`):
returns the appended `(embeddings, quality_scores, failed_indices,
errors)` for one batch. -/
def collect_results (i : ℕ) :
    List EmbeddingResult → List (Option Vec) × List ℚ × List ℕ × List String
  | [] => ([], [], [], [])
  | r :: rs =>
    let (es, qs, fs, errs) := collect_results (i + 1) rs
    if r.success then
      (r.embedding :: es, r.quality_score.getD 0 :: qs, fs, errs)
    else
      (none :: es, 0 :: qs, i :: fs, r.error.getD "" :: errs)

/-- The batch loop of `generate_batch_embeddings`: `k` is the batch number
(selecting that batch's completion schedule `orders k`), `i` the offset of
the batch's first text in the input list. -/
def batch_loop (provider : Provider) (elapsed : ℚ) (orders : ℕ → List ℕ)
    (model : EmbeddingModel) (use_cache : Bool) :
    ℕ → ℕ → List (List String × List (Option Context)) → GenState →
    List (Option Vec) × List ℚ × List ℕ × List String × GenState
  | _, _, [], st => ([], [], [], [], st)
  | k, i, (b, bc) :: bs, st =>
    let (brs, st1) := process_batch provider elapsed (orders k) b model bc use_cache st
    let (es, qs, fs, errs) := collect_results i brs
    let (es', qs', fs', errs', st2) :=
      batch_loop provider elapsed orders model use_cache (k + 1) (i + b.length) bs st1
    (es ++ es', qs ++ qs', fs ++ fs', errs ++ errs', st2)

/-- `EmbeddingGenerator.generate_batch_embeddings`.  `orders` gives the
completion schedule of each batch's worker pool. -/
def generate_batch_embeddings (provider : Provider) (elapsed : ℚ)
    (orders : ℕ → List ℕ) (texts : List String) (model : EmbeddingModel)
    (batch_size : ℕ) (context : Option (List (Option Context)))
    (use_cache : Bool) (st : GenState) : BatchEmbeddingResult × GenState :=
  if texts.isEmpty then
    ({ success := false, errors := ["No texts provided"] }, st)
  else
    let textChunks := chunkList batch_size texts
    let ctxChunks : List (List (Option Context)) :=
      match context with
      | some cs => chunkList batch_size cs
      | none => textChunks.map fun c => c.map fun _ => none
    let (es, qs, fs, errs, st') :=
      batch_loop provider elapsed orders model use_cache 0 0
        (textChunks.zip ctxChunks) st
    let successful := (es.filter fun e => e.isSome).length
    ({ success := 0 < successful
       embeddings := es
       failed_indices := fs
       total_processed := texts.length
       quality_scores := qs
       errors := errs
       successful_count := successful }, st')

/-- Dot product of two rational vectors. -/
def dotQ (a b : List ℚ) : ℚ := (List.zipWith (· * ·) a b).sum

/-- `sklearn.metrics.pairwise.cosine_similarity` on two single vectors:
`⟨a,b⟩ / (‖a‖·‖b‖)` (in ℚ a division by zero yields 0, matching sklearn's
handling of zero vectors via its zero-norm guard). -/
def cosine_similarity_q (sqrt : ℚ → ℚ) (a b : List ℚ) : ℚ :=
  dotQ a b / (sqrt (sumSq a) * sqrt (sumSq b))

/-- The `try` body of `EmbeddingGenerator.calculate_similarity`: dispatch
on the method string; an unknown method raises
`ValueError(f"Unsupported similarity method: {method}")`. -/
def calculate_similarity_checked (sqrt : ℚ → ℚ) (embedding1 embedding2 : List ℚ)
    (method : String) : Except String ℚ :=
  if method = "cosine" then
    .ok (cosine_similarity_q sqrt embedding1 embedding2)
  else if method = "euclidean" then
    .ok (1 / (1 + sqrt (sumSq (List.zipWith (· - ·) embedding1 embedding2))))
  else if method = "dot" then
    .ok (dotQ embedding1 embedding2)
  else
    .error ("Unsupported similarity method: " ++ method)

/-- `EmbeddingGenerator.calculate_similarity`: the surrounding
`except Exception` catches the `ValueError` raised for an unknown method
and returns `0.0`. -/
def calculate_similarity (sqrt : ℚ → ℚ) (embedding1 embedding2 : List ℚ)
    (method : String) : ℚ :=
  match calculate_similarity_checked sqrt embedding1 embedding2 method with
  | .ok v => v
  | .error _ => 0

/-- `EmbeddingOptimizer._normalize_embedding`:
`embedding / norm if norm > 0 else embedding`. -/
def normalize_embedding (sqrt : ℚ → ℚ) (embedding : List ℚ) : List ℚ :=
  let norm := sqrt (sumSq embedding)
  if 0 < norm then embedding.map (· / norm) else embedding

/-- Columns of a rectangular matrix (`np.array(embeddings)` viewed
column-wise). -/
def columns (vs : List (List ℚ)) : List (List ℚ) := vs.transpose

/-- `EmbeddingOptimizer._standardize_embeddings`: per-column
`(x - mean) / (std + 1e-8)` with `std = sqrt(var)`. -/
def standardize_embeddings (sqrt : ℚ → ℚ) (vs : List (List ℚ)) : List (List ℚ) :=
  let means := (columns vs).map meanQ
  let stds := (columns vs).map fun c => sqrt (varQ c)
  vs.map fun v =>
    List.zipWith (fun x ms => (x - ms.1) / (ms.2 + 1/100000000)) v (means.zip stds)

/-- `EmbeddingOptimizer._center_embeddings`: subtract the per-column mean. -/
def center_embeddings (vs : List (List ℚ)) : List (List ℚ) :=
  let means := (columns vs).map meanQ
  vs.map fun v => List.zipWith (· - ·) v means

/-- `EmbeddingOptimizer.optimize_embeddings`: dispatch on the optimization
type; anything unknown returns the input unchanged. -/
def optimize_embeddings (sqrt : ℚ → ℚ) (embeddings : List (List ℚ))
    (optimization_type : String) : List (List ℚ) :=
  if optimization_type = "normalize" then
    embeddings.map (normalize_embedding sqrt)
  else if optimization_type = "standardize" then
    standardize_embeddings sqrt embeddings
  else if optimization_type = "center" then
    center_embeddings embeddings
  else
    embeddings

/-- `DataSource` enum of `vector_migrator.py`. -/
inductive DataSource where
  | analytics
  | sessions
  | campaigns
  | transactions
  | smart_contracts
  | granular_events
deriving DecidableEq

/-- The enum's string value. -/
def DataSource.value : DataSource → String
  | .analytics => "analytics"
  | .sessions => "sessions"
  | .campaigns => "campaigns"
  | .transactions => "transactions"
  | .smart_contracts => "smart_contracts"
  | .granular_events => "granular_events"

/-- `MigrationConfig` dataclass. -/
structure MigrationConfig where
  source_types : List DataSource := []
  batch_size : ℕ := 100
  max_workers : ℕ := 4
  embedding_model : EmbeddingModel := .gemini
  validate_data : Bool := true
  optimize_embeddings : Bool := true
  backup_original : Bool := true
  resume_from_checkpoint : Bool := true
deriving DecidableEq

/-- `MigrationProgress` dataclass (the two datetime fields are not
modelled: no claim refers to them). -/
structure MigrationProgress where
  total_records : ℕ := 0
  processed_records : ℕ := 0
  successful_records : ℕ := 0
  failed_records : ℕ := 0
  skipped_records : ℕ := 0
  current_source : Option String := none
  errors : List String := []
deriving DecidableEq

/-- The intended JSON content of the checkpoint file (`_save_checkpoint`
schema): the five persisted progress fields, the config, and a
timestamp. -/
structure CheckpointData where
  total_records : ℕ
  processed_records : ℕ
  successful_records : ℕ
  failed_records : ℕ
  current_source : Option String
  config : MigrationConfig
  timestamp : String := ""
deriving DecidableEq

/-- One leaf of the checkpoint dict as the stdlib `json` encoder meets
it.  `jEnum` is a *plain* `Enum` member: `DataSource` and
`EmbeddingModel` derive from `Enum` alone (no str/int mixin), and the
stdlib encoder rejects such values with `TypeError`. -/
inductive JsonLeaf where
  | jStr (s : String)
  | jInt (n : ℤ)
  | jBool (b : Bool)
  | jNull
  | jEnum (cls member : String)
deriving DecidableEq

/-- The stdlib encoder's rule for one leaf: strings, ints, bools and
`None` serialize; a plain `Enum` member raises `TypeError`. -/
def leaf_encodable : JsonLeaf → Bool
  | .jEnum _ _ => false
  | _ => true

/-- The leaves of the `progress` sub-dict in field order (all JSON
primitives). -/
def progress_leaves (p : MigrationProgress) : List JsonLeaf :=
  [.jInt p.total_records, .jInt p.processed_records,
   .jInt p.successful_records, .jInt p.failed_records,
   match p.current_source with
   | some s => .jStr s
   | _ => .jNull]

/-- The leaves of `config.__dict__` in field order: the `DataSource`
members of `source_types`, two ints, the `EmbeddingModel` member, and
four bools. -/
def config_leaves (cfg : MigrationConfig) : List JsonLeaf :=
  (cfg.source_types.map fun s => .jEnum "DataSource" s.value) ++
  [.jInt cfg.batch_size, .jInt cfg.max_workers,
   .jEnum "EmbeddingModel" cfg.embedding_model.value,
   .jBool cfg.validate_data, .jBool cfg.optimize_embeddings,
   .jBool cfg.backup_original, .jBool cfg.resume_from_checkpoint]

/-- All leaves of the `checkpoint_data` dict handed to `json.dump`
(nesting flattened: the stream encoder succeeds iff every leaf is
serializable, and raises at the first one that is not). -/
def checkpoint_leaves (p : MigrationProgress) (cfg : MigrationConfig)
    (timestamp : String) : List JsonLeaf :=
  progress_leaves p ++ config_leaves cfg ++ [.jStr timestamp]

/-- The checkpoint file on disk: `valid` holds a complete JSON document
with the checkpoint data; `corrupt` is the truncated prefix left behind
when `json.dump` raised mid-write (the `open(..., 'w')` has already
created/truncated the file, so it exists either way). -/
inductive CheckpointFile where
  | valid (data : CheckpointData)
  | corrupt
deriving DecidableEq

/-- `VectorMigrator._save_checkpoint`: build the checkpoint dict and
`json.dump` it.  When every leaf is serializable the file holds the
data; otherwise `json.dump` raises `TypeError` partway through, the
blanket `except` logs and swallows it, and the file is left corrupt.
With `config.__dict__` always containing the plain-`Enum`
`embedding_model` field, the corrupt branch is in fact always taken
(`save_checkpoint_corrupt` below). -/
def save_checkpoint (p : MigrationProgress) (cfg : MigrationConfig)
    (timestamp : String := "") : CheckpointFile :=
  if (checkpoint_leaves p cfg timestamp).all leaf_encodable then
    .valid
      { total_records := p.total_records
        processed_records := p.processed_records
        successful_records := p.successful_records
        failed_records := p.failed_records
        current_source := p.current_source
        config := cfg
        timestamp := timestamp }
  else
    .corrupt

/-- `VectorMigrator._load_checkpoint`: a missing file is
`FileNotFoundError` (start fresh, progress unchanged); a corrupt file
makes `json.load` raise, which the blanket `except` swallows (progress
unchanged); a valid file restores exactly the five persisted progress
fields. -/
def load_checkpoint (file : Option CheckpointFile) (p : MigrationProgress) :
    MigrationProgress :=
  match file with
  | some (.valid c) =>
    { p with
      total_records := c.total_records
      processed_records := c.processed_records
      successful_records := c.successful_records
      failed_records := c.failed_records
      current_source := c.current_source }
  | _ => p

/-- One source record, abstracted to the outcome of its
content-extraction + embedding-generation + insert pipeline: `ok` when
`generate_embedding` succeeds and the vector document is inserted,
`error msg` when the embedding result carries an error or an exception is
caught by the per-record handler (per C5 the generator itself never
raises). -/
abbrev MigRecord := Except String Unit

/-- Entry of the list returned by the `_process_*_batch` methods:
`{'success': bool, 'error': str?}`. -/
structure BatchItemResult where
  success : Bool
  error : Option String := none
deriving DecidableEq

/-- `VectorMigrator._process_analytics_batch` (and its session and
transaction twins, which have the same control flow): every record is
processed inside its own `try/except`, so one failed record never aborts
the batch — it just contributes a failed item result. -/
def process_source_batch (batch : List MigRecord) : List BatchItemResult :=
  batch.map fun r =>
    match r with
    | .ok _ => { success := true }
    | .error e => { success := false, error := some e }

/-- The batch loop shared by `migrate_analytics_data`,
`migrate_session_data` and `migrate_transaction_data`: `sm` is the
`successful_migrations` accumulator, which the source adds to
`progress.successful_records` after every batch *without resetting it*
(`self.progress.successful_records += successful_migrations` inside the
loop, with `successful_migrations` cumulative across batches).
`progress.failed_records` and `progress.errors` are never touched. -/
def migrate_batches : List (List MigRecord) → ℕ → MigrationProgress →
    MigrationProgress × ℕ
  | [], sm, p => (p, sm)
  | b :: bs, sm, p =>
    let results := process_source_batch b
    let sm' := sm + (results.filter fun r => r.success).length
    let p' := { p with
      processed_records := p.processed_records + b.length
      successful_records := p.successful_records + sm' }
    migrate_batches bs sm' p'

/-- `VectorMigrator.migrate_analytics_data` (progress-relevant part):
fetch the records, return unchanged on an empty fetch, otherwise process
them in `batch_size` slices.  Returns the updated progress and the final
`successful_migrations` counter. -/
def migrate_analytics_data (records : List MigRecord) (batch_size : ℕ)
    (p : MigrationProgress) : MigrationProgress × ℕ :=
  if records.isEmpty then (p, 0)
  else migrate_batches (chunkList batch_size records) 0 p

/-- `VectorMigrator.migrate_session_data`: structurally identical to the
analytics variant. -/
def migrate_session_data (records : List MigRecord) (batch_size : ℕ)
    (p : MigrationProgress) : MigrationProgress × ℕ :=
  migrate_analytics_data records batch_size p

/-- `VectorMigrator.migrate_transaction_data`: structurally identical to
the analytics variant. -/
def migrate_transaction_data (records : List MigRecord) (batch_size : ℕ)
    (p : MigrationProgress) : MigrationProgress × ℕ :=
  migrate_analytics_data records batch_size p

/-- `VectorMigrator._count_source_records`: analytics, sessions, campaigns
and transactions count their collection; every other source returns 0. -/
def count_source_records (data : DataSource → List MigRecord) :
    DataSource → ℕ
  | .analytics => (data .analytics).length
  | .sessions => (data .sessions).length
  | .campaigns => (data .campaigns).length
  | .transactions => (data .transactions).length
  | _ => 0

/-- `VectorMigrator._calculate_total_records`: assigns (not adds) the sum
of the per-source counts. -/
def calculate_total_records (data : DataSource → List MigRecord)
    (cfg : MigrationConfig) (p : MigrationProgress) : MigrationProgress :=
  { p with total_records := (cfg.source_types.map (count_source_records data)).sum }

/-- `VectorMigrator._migrate_data_source`: analytics, sessions and
transactions dispatch to their migration method; the remaining sources
are not handled (`# Add other sources as needed`). -/
def migrate_data_source (data : DataSource → List MigRecord)
    (batch_size : ℕ) (src : DataSource) (p : MigrationProgress) :
    MigrationProgress :=
  match src with
  | .analytics => (migrate_analytics_data (data .analytics) batch_size p).1
  | .sessions => (migrate_session_data (data .sessions) batch_size p).1
  | .transactions => (migrate_transaction_data (data .transactions) batch_size p).1
  | _ => p

/-- Migrator-level mutable state relevant to the claims: the in-memory
progress and the checkpoint file on disk (`none` = file absent). -/
structure MigratorState where
  progress : MigrationProgress := {}
  checkpoint_file : Option CheckpointFile := none
deriving DecidableEq

/-- The source loop of `migrate_all_data`: before each source the
cooperative `should_pause` flag is checked (`pause k` tells whether a
pause has been requested by the time boundary `k` is reached); on pause
`_save_checkpoint` is attempted — writing whatever `json.dump` produces,
a corrupt file in fact (see `save_checkpoint`) — and the loop breaks.
Returns the progress, the checkpoint file, and whether the loop was
interrupted by a pause. -/
def sources_loop (data : DataSource → List MigRecord) (pause : ℕ → Bool)
    (batch_size : ℕ) (cfg : MigrationConfig) :
    ℕ → List DataSource → MigrationProgress → Option CheckpointFile →
    MigrationProgress × Option CheckpointFile × Bool
  | _, [], p, file => (p, file, false)
  | k, s :: ss, p, file =>
    if pause k then (p, some (save_checkpoint p cfg), true)
    else
      let p1 := { p with current_source := some s.value }
      let p2 := migrate_data_source data batch_size s p1
      sources_loop data pause batch_size cfg (k + 1) ss p2 file

/-- `VectorMigrator._finalize_migration`: unconditionally removes the
checkpoint file if it exists. -/
def finalize_migration (_file : Option CheckpointFile) : Option CheckpointFile :=
  none

/-- `VectorMigrator.migrate_all_data` (no exception path is modelled:
with the record outcomes abstracted into `MigRecord`, no step of the
`try` body raises).  Steps: load the checkpoint when
`resume_from_checkpoint` is set and the file exists, recompute
`total_records`, run the source loop with cooperative pause checks, then
`_finalize_migration` — which deletes the checkpoint file even when the
loop was interrupted by a pause.  Returns the new migrator state and
whether the run was interrupted by a pause. -/
def migrate_all_data (data : DataSource → List MigRecord)
    (pause : ℕ → Bool) (cfg : MigrationConfig) (st : MigratorState) :
    MigratorState × Bool :=
  let p0 :=
    if cfg.resume_from_checkpoint then load_checkpoint st.checkpoint_file st.progress
    else st.progress
  let p1 := calculate_total_records data cfg p0
  let (p2, file2, paused) :=
    sources_loop data pause cfg.batch_size cfg 0 cfg.source_types p1
      st.checkpoint_file
  ({ progress := p2, checkpoint_file := finalize_migration file2 }, paused)

/-! Concrete instances used by counterexamples and witnesses. -/

/-- A provider whose vector records the length of the (preprocessed) text
it was asked to embed — distinct texts of distinct lengths get distinct
vectors. -/
def echoProvider : Provider := fun _ t => .ok [PVal.fin t.length]

/-- A provider that always fails with a fixed API error. -/
def failingProvider : Provider := fun _ _ => .error "API Error"

/-- A provider returning a fixed one-component vector. -/
def constProvider : Provider := fun _ _ => .ok [PVal.fin 1]

/-- A 384-dimensional, finite, unit-variance vector: 192 components `+1`
and 192 components `-1` (mean 0, `np.var` exactly 1, L2 norm √384). -/
def w384 : Vec :=
  List.replicate 192 (PVal.fin 1) ++ List.replicate 192 (PVal.fin (-1))

/-- A square-root function adequate for the inputs of the `C10` witness:
correct at 25 (the sum of squares of `[3, 4]`). -/
def sq35 : ℚ → ℚ := fun q => if q = 25 then 5 else 0

/-- Migration run configuration used by the `C3` counterexample: one
analytics source, no resume. -/
def cfgC3 : MigrationConfig :=
  { source_types := [.analytics], resume_from_checkpoint := false }

/-- The spec's checkpoint round-trip example progress:
`{total=100, processed=50, successful=45, current_source="analytics"}`. -/
def pSave : MigrationProgress :=
  { total_records := 100, processed_records := 50, successful_records := 45,
    current_source := some "analytics" }

/-! Helper lemmas about vectors and the validator's numeric checks. -/

lemma allFinite_append (a b : Vec) :
    allFinite (a ++ b) = (allFinite a && allFinite b) := by
  simp [allFinite, List.all_append]

lemma allFinite_replicate_fin (n : ℕ) (q : ℚ) :
    allFinite (List.replicate n (PVal.fin q)) = true := by
  induction n with
  | zero => rfl
  | succ n ih =>
    simp only [allFinite, List.replicate_succ, List.all_cons, PVal.isFinite,
      Bool.true_and] at ih ⊢
    exact ih

lemma finPart_append (a b : Vec) : finPart (a ++ b) = finPart a ++ finPart b := by
  simp [finPart, List.filterMap_append]

lemma finPart_replicate_fin (n : ℕ) (q : ℚ) :
    finPart (List.replicate n (PVal.fin q)) = List.replicate n q := by
  induction n with
  | zero => rfl
  | succ n ih =>
    simp only [finPart, List.replicate_succ, List.filterMap_cons] at ih ⊢
    simp [ih]

lemma any_replicate_false {α : Type} (n : ℕ) (x : α) (p : α → Bool)
    (h : p x = false) : (List.replicate n x).any p = false := by
  induction n with
  | zero => rfl
  | succ n ih => simp [List.replicate_succ, h, ih]

lemma sumSq_append (a b : List ℚ) : sumSq (a ++ b) = sumSq a + sumSq b := by
  simp [sumSq]

lemma sumSq_replicate (n : ℕ) (q : ℚ) :
    sumSq (List.replicate n q) = n * (q * q) := by
  simp [sumSq, List.map_replicate, List.sum_replicate, nsmul_eq_mul]

lemma sumSq_nonneg (l : List ℚ) : 0 ≤ sumSq l := by
  induction l with
  | nil => simp [sumSq]
  | cons x xs ih =>
    simp only [sumSq, List.map_cons, List.sum_cons] at ih ⊢
    nlinarith [mul_self_nonneg x]

lemma finPart_length_of_allFinite (v : Vec) (h : allFinite v = true) :
    (finPart v).length = v.length := by
  induction v with
  | nil => rfl
  | cons x xs ih =>
    cases x with
    | fin q =>
      simp only [allFinite, List.all_cons, PVal.isFinite, Bool.true_and] at h
      simp only [finPart, List.filterMap_cons, List.length_cons]
      simp only [finPart, allFinite] at ih
      rw [ih h]
    | nan => simp [allFinite, PVal.isFinite] at h
    | inf => simp [allFinite, PVal.isFinite] at h
    | ninf => simp [allFinite, PVal.isFinite] at h

lemma not_any_special_of_allFinite (v : Vec) (h : allFinite v = true) :
    v.any PVal.isNaN = false ∧ v.any PVal.isInf = false := by
  induction v with
  | nil => exact ⟨rfl, rfl⟩
  | cons x xs ih =>
    cases x with
    | fin q =>
      simp only [allFinite, List.all_cons, PVal.isFinite, Bool.true_and] at h
      have := ih h
      simp [List.any_cons, PVal.isNaN, PVal.isInf, this.1, this.2]
    | nan => simp [allFinite, PVal.isFinite] at h
    | inf => simp [allFinite, PVal.isFinite] at h
    | ninf => simp [allFinite, PVal.isFinite] at h

lemma sum_map_sub_sq (l : List ℚ) (c : ℚ) :
    (l.map fun x => (x - c) ^ 2).sum
      = sumSq l - 2 * c * l.sum + l.length * c ^ 2 := by
  induction l with
  | nil => simp [sumSq]
  | cons x xs ih =>
    simp only [sumSq, List.map_cons, List.sum_cons, List.length_cons] at ih ⊢
    rw [ih]
    push_cast
    ring

lemma sum_eq_length_mul_meanQ (l : List ℚ) (h : l.length ≠ 0) :
    l.sum = l.length * meanQ l := by
  rw [meanQ, mul_div_cancel₀]
  exact_mod_cast h

lemma length_mul_varQ_le_sumSq (l : List ℚ) :
    (l.length : ℚ) * varQ l ≤ sumSq l := by
  by_cases h : l.length = 0
  · have : l = [] := List.eq_nil_of_length_eq_zero h
    subst this
    simp [varQ, sumSq]
  · have hne : (l.length : ℚ) ≠ 0 := by exact_mod_cast h
    rw [varQ, mul_div_cancel₀ _ hne, sum_map_sub_sq, sum_eq_length_mul_meanQ l h]
    nlinarith [mul_self_nonneg (meanQ l), Nat.cast_nonneg (α := ℚ) l.length,
      mul_nonneg (Nat.cast_nonneg (α := ℚ) l.length) (mul_self_nonneg (meanQ l))]

lemma w384_finPart :
    finPart w384 = List.replicate 192 (1 : ℚ) ++ List.replicate 192 (-1 : ℚ) := by
  rw [w384, finPart_append, finPart_replicate_fin, finPart_replicate_fin]

lemma w384_sumSq : sumSq (finPart w384) = 384 := by
  rw [w384_finPart, sumSq_append, sumSq_replicate, sumSq_replicate]
  norm_num

lemma w384_allFinite : allFinite w384 = true := by
  rw [w384, allFinite_append, allFinite_replicate_fin, allFinite_replicate_fin]
  rfl

set_option maxRecDepth 4000 in
lemma w384_varQ : varQ (finPart w384) = 1 := by
  rw [w384_finPart, varQ, meanQ]
  simp only [List.map_append, List.map_replicate, List.sum_append,
    List.sum_replicate, List.length_append, List.length_replicate, nsmul_eq_mul]
  norm_num

lemma w384_length : w384.length = 384 := by
  rw [w384]
  simp only [List.length_append, List.length_replicate]

lemma w384_validate :
    validate_embedding w384 "hello world!" .sentence_transformer = 4/5 := by
  rw [validate_embedding]
  have h1 : w384.length = get_expected_dimensions .sentence_transformer := by
    rw [w384_length]; rfl
  have h2 : w384.any PVal.isNaN = false := (not_any_special_of_allFinite _ w384_allFinite).1
  have h3 : w384.any PVal.isInf = false := (not_any_special_of_allFinite _ w384_allFinite).2
  have h4 : magnitudeOk w384 = false := by
    have hno : ¬((1 : ℚ)/100 < 384 ∧ (384 : ℚ) < 100) := by norm_num
    rw [magnitudeOk, w384_sumSq, w384_allFinite, decide_eq_false hno, Bool.and_false]
  have h5 : varianceOk w384 = true := by
    have hyes : (1 : ℚ)/1000 < 1 := by norm_num
    rw [varianceOk, w384_varQ, w384_allFinite, decide_eq_true hyes, Bool.and_true]
  have h6 : 10 < "hello world!".length := by decide
  simp only [h1, h2, h3, h4, h5, h6, if_true, if_pos, eq_self_iff_true, and_self,
    Bool.false_eq_true, if_false]
  norm_num [min_def]

/-- C6 counterexample.  `w384` is finite, correctly dimensioned for the
sentence-transformer model, of unit variance, and comes with a text of
length 12 > 10 — exactly the scenario the claim says scores above 0.85 —
yet `validate_embedding` gives it 0.8: its L2 norm is √384 ≈ 19.6, so the
magnitude check `0.1 < ‖v‖ < 10` cannot contribute its 0.20. -/
theorem C6_counterexample :
    allFinite w384 = true ∧
    w384.length = get_expected_dimensions .sentence_transformer ∧
    varQ (finPart w384) = 1 ∧
    10 < "hello world!".length ∧
    validate_embedding w384 "hello world!" .sentence_transformer = 4/5 ∧
    ¬ (17/20 < validate_embedding w384 "hello world!" .sentence_transformer) := by
  refine ⟨w384_allFinite, ?_, w384_varQ, by decide, w384_validate, ?_⟩
  · rw [w384_length]; rfl
  · rw [w384_validate]; norm_num

/-- C6 (amended).  `validate_embedding` returns the weighted sum of the
satisfied checks capped at 1.0 and always lies in [0,1]; an all-NaN vector
scores below 0.5; but a unit-variance, correctly-dimensioned, finite
vector from text longer than 10 characters scores exactly 0.8, not more
than 0.85: every supported model has dimension ≥ 384, and unit variance at
dimension d forces the squared L2 norm to be at least d ≥ 384, so the
magnitude check (norm strictly below 10, i.e. squared norm below 100)
necessarily fails. -/
theorem C6_quality_score_amended (v : Vec) (text : String) (model : EmbeddingModel) :
    0 ≤ validate_embedding v text model ∧
    validate_embedding v text model ≤ 1 ∧
    (v ≠ [] → v.all PVal.isNaN = true →
      validate_embedding v text model < 1/2) ∧
    (allFinite v = true → v.length = get_expected_dimensions model →
      varQ (finPart v) = 1 → 10 < text.length →
      validate_embedding v text model = 4/5) := by
  refine ⟨?_, ?_, ?_, ?_⟩
  · rw [validate_embedding]
    split_ifs <;> norm_num [min_def]
  · rw [validate_embedding]
    split_ifs <;> norm_num [min_def]
  · intro hne hall
    obtain ⟨x, xs, rfl⟩ := List.exists_cons_of_ne_nil hne
    simp only [List.all_cons, Bool.and_eq_true] at hall
    have hx : x = PVal.nan := by
      cases x <;> simp [PVal.isNaN] at hall ⊢
    subst hx
    have hany : (PVal.nan :: xs).any PVal.isNaN = true := by
      simp [List.any_cons, PVal.isNaN]
    have hfin : allFinite (PVal.nan :: xs) = false := by
      simp [allFinite, List.all_cons, PVal.isFinite]
    have hmag : magnitudeOk (PVal.nan :: xs) = false := by
      rw [magnitudeOk, hfin, Bool.false_and]
    have hvar : varianceOk (PVal.nan :: xs) = false := by
      rw [varianceOk, hfin, Bool.false_and]
    rw [validate_embedding]
    simp only [hany, hmag, hvar, Bool.true_eq_false, false_and, if_false,
      Bool.false_eq_true]
    split_ifs <;> norm_num [min_def]
  · intro hfin hdim hvar htext
    have hnan : v.any PVal.isNaN = false := (not_any_special_of_allFinite v hfin).1
    have hinf : v.any PVal.isInf = false := (not_any_special_of_allFinite v hfin).2
    have hlen : (finPart v).length = v.length := finPart_length_of_allFinite v hfin
    have hdims384 : 384 ≤ get_expected_dimensions model := by
      cases model <;> simp [get_expected_dimensions]
    have hsum : (384 : ℚ) ≤ sumSq (finPart v) := by
      have h1 : ((finPart v).length : ℚ) * varQ (finPart v) ≤ sumSq (finPart v) :=
        length_mul_varQ_le_sumSq (finPart v)
      rw [hvar, mul_one, hlen, hdim] at h1
      calc (384 : ℚ) ≤ (get_expected_dimensions model : ℚ) := by exact_mod_cast hdims384
        _ ≤ sumSq (finPart v) := h1
    have hmag : magnitudeOk v = false := by
      have hno : ¬((1 : ℚ)/100 < sumSq (finPart v) ∧ sumSq (finPart v) < 100) := by
        rintro ⟨-, hlt⟩
        linarith
      rw [magnitudeOk, hfin, decide_eq_false hno, Bool.and_false]
    have hvok : varianceOk v = true := by
      have hyes : (1 : ℚ)/1000 < varQ (finPart v) := by rw [hvar]; norm_num
      rw [varianceOk, hfin, decide_eq_true hyes, Bool.and_true]
    rw [validate_embedding]
    simp only [hdim, hnan, hinf, hmag, hvok, htext, if_true, if_pos,
      eq_self_iff_true, and_self, Bool.false_eq_true, if_false]
    norm_num [min_def]

/-- C6 witness: the amended theorem applied at `w384` (scoring exactly
0.8) and at the one-component NaN vector (scoring below 0.5). -/
theorem C6_witness :
    0 ≤ validate_embedding w384 "hello world!" .sentence_transformer ∧
    validate_embedding w384 "hello world!" .sentence_transformer = 4/5 ∧
    validate_embedding [PVal.nan] "hello world!" .sentence_transformer < 1/2 := by
  refine ⟨(C6_quality_score_amended w384 "hello world!" .sentence_transformer).1, ?_, ?_⟩
  · exact (C6_quality_score_amended w384 "hello world!" .sentence_transformer).2.2.2
      w384_allFinite (by rw [w384_length]; rfl) w384_varQ (by decide)
  · exact (C6_quality_score_amended [PVal.nan] "hello world!" .sentence_transformer).2.2.1
      (by simp) rfl

/-! Helper lemmas about the batch-slicing loop. -/

lemma chunkList_nil {α : Type} (b : ℕ) : chunkList b ([] : List α) = [] := by
  rw [chunkList]
  simp

lemma chunkList_step {α : Type} (b : ℕ) (l : List α) (hb : b ≠ 0)
    (hl : l.length ≠ 0) :
    chunkList b l = l.take b :: chunkList b (l.drop b) := by
  rw [chunkList]
  simp [hb, hl]

lemma chunkList_length_aux {α : Type} (b : ℕ) (hb : 0 < b) :
    ∀ n (l : List α), l.length ≤ n →
      (chunkList b l).length = (l.length + b - 1) / b := by
  intro n
  induction n with
  | zero =>
    intro l hl
    have : l = [] := List.eq_nil_of_length_eq_zero (Nat.le_zero.mp hl)
    subst this
    rw [chunkList_nil]
    simp [Nat.div_eq_of_lt (Nat.sub_lt hb Nat.one_pos)]
  | succ n ih =>
    intro l hl
    by_cases hz : l.length = 0
    · have : l = [] := List.eq_nil_of_length_eq_zero hz
      subst this
      rw [chunkList_nil]
      simp [Nat.div_eq_of_lt (Nat.sub_lt hb Nat.one_pos)]
    · rw [chunkList_step b l hb.ne' hz, List.length_cons]
      have hdrop : (l.drop b).length ≤ n := by
        rw [List.length_drop]
        omega
      rw [ih (l.drop b) hdrop, List.length_drop]
      rcases le_or_lt b l.length with hble | hlt
      · have h1 : l.length - b + b - 1 = l.length - 1 := by omega
        have h2 : l.length + b - 1 = (l.length - 1) + b := by omega
        rw [h1, h2, Nat.add_div_right _ hb]
      · have h1 : l.length - b = 0 := by omega
        rw [h1]
        simp only [Nat.zero_add]
        rw [Nat.div_eq_of_lt (Nat.sub_lt hb Nat.one_pos)]
        have h2 : (l.length + b - 1) / b = 1 := by
          apply Nat.div_eq_of_lt_le
          · omega
          · omega
        omega

lemma chunkList_sum_length_aux {α : Type} (b : ℕ) (hb : 0 < b) :
    ∀ n (l : List α), l.length ≤ n →
      ((chunkList b l).map List.length).sum = l.length := by
  intro n
  induction n with
  | zero =>
    intro l hl
    have : l = [] := List.eq_nil_of_length_eq_zero (Nat.le_zero.mp hl)
    subst this
    rw [chunkList_nil]
    rfl
  | succ n ih =>
    intro l hl
    by_cases hz : l.length = 0
    · have : l = [] := List.eq_nil_of_length_eq_zero hz
      subst this
      rw [chunkList_nil]
      rfl
    · rw [chunkList_step b l hb.ne' hz, List.map_cons, List.sum_cons]
      have hdrop : (l.drop b).length ≤ n := by
        rw [List.length_drop]; omega
      rw [ih (l.drop b) hdrop, List.length_drop, List.length_take]
      omega

lemma chunkList_mem_length_aux {α : Type} (b : ℕ) (hb : 0 < b) :
    ∀ n (l : List α), l.length ≤ n →
      ∀ c ∈ chunkList b l, 0 < c.length ∧ c.length ≤ b := by
  intro n
  induction n with
  | zero =>
    intro l hl c hc
    have : l = [] := List.eq_nil_of_length_eq_zero (Nat.le_zero.mp hl)
    subst this
    rw [chunkList_nil] at hc
    simp at hc
  | succ n ih =>
    intro l hl c hc
    by_cases hz : l.length = 0
    · have : l = [] := List.eq_nil_of_length_eq_zero hz
      subst this
      rw [chunkList_nil] at hc
      simp at hc
    · rw [chunkList_step b l hb.ne' hz, List.mem_cons] at hc
      rcases hc with rfl | hc
      · rw [List.length_take]
        omega
      · exact ih (l.drop b) (by rw [List.length_drop]; omega) c hc

lemma migrate_batches_processed (bs : List (List MigRecord)) :
    ∀ (sm : ℕ) (p : MigrationProgress),
      (migrate_batches bs sm p).1.processed_records
        = p.processed_records + (bs.map List.length).sum := by
  induction bs with
  | nil => intro sm p; simp [migrate_batches]
  | cons b bs ih =>
    intro sm p
    rw [migrate_batches, ih]
    simp only [List.map_cons, List.sum_cons]
    omega

/-- C7.  A migration over the fetched records with a positive batch size
processes them in `⌈N/B⌉` batches, each nonempty and of at most `B`
records (the precise sizes for the 23-record example are in the witness),
and `processed_records` grows by exactly the number of fetched records. -/
theorem C7_batching_and_processed_count (records : List MigRecord)
    (batch_size : ℕ) (p : MigrationProgress) (hb : 0 < batch_size) :
    (chunkList batch_size records).length
        = (records.length + batch_size - 1) / batch_size ∧
    (∀ c ∈ chunkList batch_size records, 0 < c.length ∧ c.length ≤ batch_size) ∧
    (migrate_analytics_data records batch_size p).1.processed_records
        = p.processed_records + records.length := by
  refine ⟨chunkList_length_aux batch_size hb records.length records le_rfl,
    chunkList_mem_length_aux batch_size hb records.length records le_rfl, ?_⟩
  rw [migrate_analytics_data]
  by_cases hr : records.isEmpty
  · have : records = [] := List.isEmpty_iff.mp hr
    subst this
    simp
  · simp only [hr, if_false, Bool.false_eq_true]
    rw [migrate_batches_processed,
      chunkList_sum_length_aux batch_size hb records.length records le_rfl]

/-- C7 witness: 23 analytics records at `batch_size = 10` give 3 batches
of sizes 10, 10, 3, and `processed_records` ends at 23 from a fresh
progress. -/
theorem C7_witness :
    (chunkList 10 (List.replicate 23 (Except.ok () : MigRecord))).length = 3 ∧
    (chunkList 10 (List.replicate 23 (Except.ok () : MigRecord))).map List.length
      = [10, 10, 3] ∧
    (migrate_analytics_data (List.replicate 23 (Except.ok ())) 10
        {}).1.processed_records = 23 := by
  refine ⟨?_, by simp [chunkList], ?_⟩
  · have h := (C7_batching_and_processed_count
      (List.replicate 23 (Except.ok ())) 10 {} (by norm_num)).1
    simpa using h
  · have h := (C7_batching_and_processed_count
      (List.replicate 23 (Except.ok ())) 10 {} (by norm_num)).2.2
    simpa using h

lemma save_checkpoint_corrupt (p : MigrationProgress) (cfg : MigrationConfig)
    (ts : String) : save_checkpoint p cfg ts = .corrupt := by
  have h : (checkpoint_leaves p cfg ts).all leaf_encodable = false := by
    simp [checkpoint_leaves, config_leaves, progress_leaves, List.all_append,
      leaf_encodable]
  rw [save_checkpoint, h]
  rfl

/-- C8 (code behavior at the failing input).  `_save_checkpoint` on the
spec's example progress can never write a loadable checkpoint:
`config.__dict__` always contains plain `Enum` members
(`embedding_model`, and the `DataSource` entries of `source_types`), so
`json.dump` raises `TypeError` mid-write and the blanket `except`
swallows it, leaving a corrupt partial file; `_load_checkpoint` on that
file has `json.load` raise, also swallowed, so a fresh migrator's
progress is left unchanged — `successful_records` stays 0, not the saved
45, contradicting the claimed save-then-load identity (and the repo's
own `test_migration_recovery`). -/
theorem C8_checkpoint_roundtrip_fails :
    save_checkpoint pSave {} = CheckpointFile.corrupt ∧
    load_checkpoint (some (save_checkpoint pSave {})) {} = ({} : MigrationProgress) ∧
    ({} : MigrationProgress).successful_records ≠ pSave.successful_records := by
  refine ⟨save_checkpoint_corrupt pSave {} "", ?_, by simp [pSave]⟩
  rw [save_checkpoint_corrupt pSave {} ""]
  rfl

/-- C5.  `generate_embedding` is a total function of its inputs (it can
never raise), and whenever the dispatched provider fails — including the
`ValueError` raised for an unsupported model — and the call is not served
from the cache, the exception is converted into an `EmbeddingResult` with
`success = false`, the exception message in `error`, and the elapsed
`processing_time` still recorded. -/
theorem C5_generate_embedding_never_raises (provider : Provider) (elapsed : ℚ)
    (text : String) (model : EmbeddingModel) (context : Option Context)
    (use_cache : Bool) (st : GenState) (msg : String)
    (hmiss : use_cache = true → get_cached_embedding st text model = none)
    (hfail : dispatch_model provider model (preprocess_text text context)
      = .error msg) :
    (generate_embedding provider elapsed text model context use_cache st).1
      = { success := false, error := some msg, processing_time := some elapsed } := by
  cases use_cache
  · simp [generate_embedding, hfail]
  · simp [generate_embedding, hmiss rfl, hfail]

/-- C5 witness: a provider raising `"API Error"` on a cache miss yields
the failed result with the message and the elapsed time. -/
theorem C5_witness :
    (generate_embedding failingProvider 2 "hi" .gemini none true {}).1
      = { success := false, error := some "API Error",
          processing_time := some 2 } :=
  C5_generate_embedding_never_raises failingProvider 2 "hi" .gemini none true {}
    "API Error" (fun _ => rfl) rfl

/-- C4 (code behavior at the failing input).  Three records — success,
success, then an embedding failure `"boom"` — migrated with
`batch_size = 1` leave `failed_records = 0` and `errors = []` (the claim
says the failure is counted and its message appended), and drive
`successful_records` to 5 instead of 2: the loop adds the *cumulative*
`successful_migrations` counter after every batch (1, then 1+1, then
1+1+0 again) instead of the batch's own outcome count. -/
theorem C4_progress_counts_diverge :
    (migrate_analytics_data [Except.ok (), Except.ok (), Except.error "boom"]
        1 {}).1
      = { total_records := 0, processed_records := 3, successful_records := 5,
          failed_records := 0, skipped_records := 0, current_source := none,
          errors := [] } := by
  simp [migrate_analytics_data, migrate_batches, chunkList, process_source_batch,
    List.filter]

/-- C3 (code behavior at the failing input).  With one configured
analytics source and a pause requested before the first source boundary,
the run does stop at the boundary, but the claim fails twice over.
First, no valid serialization of `MigrationProgress` + `MigrationConfig`
ever reaches the checkpoint file: `json.dump` raises `TypeError` on the
config's plain `Enum` members and the handler swallows it, so the pause
leaves only a corrupt partial file.  Second, the unconditional
`_finalize_migration` at the end of the `try` block then deletes that
file anyway, so after the paused run returns no checkpoint file exists
at all. -/
theorem C3_pause_checkpoint_deleted :
    save_checkpoint (calculate_total_records (fun _ => [Except.ok ()]) cfgC3 {})
        cfgC3
      = CheckpointFile.corrupt ∧
    (sources_loop (fun _ => [Except.ok ()]) (fun _ => true) cfgC3.batch_size
        cfgC3 0 cfgC3.source_types
        (calculate_total_records (fun _ => [Except.ok ()]) cfgC3 {})
        none).2.1
      = some CheckpointFile.corrupt ∧
    (migrate_all_data (fun _ => [Except.ok ()]) (fun _ => true) cfgC3 {}).2
      = true ∧
    (migrate_all_data (fun _ => [Except.ok ()]) (fun _ => true) cfgC3
        {}).1.checkpoint_file
      = none := by
  refine ⟨save_checkpoint_corrupt _ cfgC3 "", ?_, ?_, ?_⟩
  · simp [cfgC3, sources_loop, save_checkpoint_corrupt]
  · simp [migrate_all_data, cfgC3, sources_loop, calculate_total_records]
  · simp [migrate_all_data, finalize_migration]

/-- C2 (code behavior at the failing input).  An unknown similarity
method does raise a `ValueError` inside the `try` body, but the
function's own blanket `except` swallows it and returns `0.0` — the very
value returned for genuinely orthogonal vectors under `"cosine"` — so the
caller receives no error signal and cannot distinguish the unsupported
method from a zero-similarity result. -/
theorem C2_unknown_method_returns_zero :
    calculate_similarity_checked id [1, 0] [0, 1] "manhattan"
      = .error "Unsupported similarity method: manhattan" ∧
    calculate_similarity id [1, 0] [0, 1] "manhattan" = 0 ∧
    calculate_similarity id [1, 0] [0, 1] "cosine" = 0 := by
  refine ⟨?_, ?_, ?_⟩ <;>
    simp [calculate_similarity, calculate_similarity_checked, cosine_similarity_q,
      dotQ]

/-- C1 (code behavior at the failing input).  Two texts `"a"` and `"bb"`
are embedded by a provider that encodes each text's length; with the
completion schedule in which the second future finishes first,
`generate_batch_embeddings` returns `embeddings` in completion order:
position 0 holds the embedding of `"bb"` and position 1 that of `"a"`,
the opposite of the per-text results — positional correspondence with the
input is lost because `_process_batch` collects `as_completed` results
without tracking the original index. -/
theorem C1_batch_order_not_preserved :
    (generate_batch_embeddings echoProvider 1 (fun _ => [1, 0]) ["a", "bb"]
        .gemini 2 none false {}).1.embeddings
      = [some [PVal.fin 2], some [PVal.fin 1]] ∧
    (generate_embedding echoProvider 1 "a" .gemini none false {}).1.embedding
      = some [PVal.fin 1] ∧
    (generate_embedding echoProvider 1 "bb" .gemini none false {}).1.embedding
      = some [PVal.fin 2] ∧
    (generate_batch_embeddings echoProvider 1 (fun _ => [1, 0]) ["a", "bb"]
        .gemini 2 none false {}).1.embeddings
      ≠ [some [PVal.fin 1], some [PVal.fin 2]] := by
  have h1 : (generate_batch_embeddings echoProvider 1 (fun _ => [1, 0])
      ["a", "bb"] .gemini 2 none false {}).1.embeddings
      = [some [PVal.fin 2], some [PVal.fin 1]] := by
    simp [generate_batch_embeddings, chunkList, batch_loop, process_batch,
      run_futures, generate_embedding, dispatch_model, echoProvider,
      preprocess_text, collect_results, pyStrip, validate_embedding,
      String.length]
  refine ⟨h1, ?_, ?_, ?_⟩
  · simp [generate_embedding, dispatch_model, echoProvider, preprocess_text,
      pyStrip, String.length]
  · simp [generate_embedding, dispatch_model, echoProvider, preprocess_text,
      pyStrip, String.length]
  · rw [h1]
    simp only [ne_eq, List.cons.injEq, Option.some.injEq, PVal.fin.injEq]
    norm_num

/-! Helper lemmas about the two-tier embedding cache. -/

lemma lookup_cons_self {β : Type} (k : String) (b : β) (l : List (String × β)) :
    List.lookup k ((k, b) :: l) = some b := by
  simp [List.lookup]

lemma get_cached_stable (st : GenState) (text : String) (model : EmbeddingModel)
    (r : EmbeddingResult) (st' : GenState)
    (h : get_cached_embedding st text model = some (r, st')) :
    get_cached_embedding st' text model = some (r, st') := by
  rw [get_cached_embedding] at h ⊢
  cases hm : st.mem.lookup (generate_cache_key text model) with
  | some r0 =>
    rw [hm] at h
    simp only [Option.some.injEq, Prod.mk.injEq] at h
    obtain ⟨hr, hst⟩ := h
    subst hr
    subst hst
    rw [hm]
  | none =>
    rw [hm] at h
    cases hdb : st.db.lookup (generate_cache_key text model) with
    | some doc =>
      rw [hdb] at h
      simp only [Option.some.injEq, Prod.mk.injEq] at h
      obtain ⟨hr, hst⟩ := h
      subst hst
      rw [← hr, lookup_cons_self]
    | none =>
      rw [hdb] at h
      exact absurd h (by simp)

lemma get_cached_after_cache (text : String) (model : EmbeddingModel)
    (r : EmbeddingResult) (st : GenState) :
    get_cached_embedding (cache_embedding text model r st) text model
      = some (r, cache_embedding text model r st) := by
  rw [get_cached_embedding, cache_embedding]
  simp only [lookup_cons_self]

lemma generate_of_cached (provider : Provider) (e : ℚ) (text : String)
    (model : EmbeddingModel) (context : Option Context) (st : GenState)
    (r : EmbeddingResult) (st' : GenState)
    (h : get_cached_embedding st text model = some (r, st')) :
    generate_embedding provider e text model context true st = (r, st') := by
  simp [generate_embedding, h]

lemma first_call_cached (provider : Provider) (e : ℚ) (text : String)
    (model : EmbeddingModel) (context : Option Context) (st : GenState)
    (h : (generate_embedding provider e text model context true st).1.success = true) :
    get_cached_embedding
        (generate_embedding provider e text model context true st).2 text model
      = some ((generate_embedding provider e text model context true st).1,
              (generate_embedding provider e text model context true st).2) := by
  cases hc : get_cached_embedding st text model with
  | some pr =>
    obtain ⟨r, st'⟩ := pr
    rw [generate_of_cached provider e text model context st r st' hc]
    exact get_cached_stable st text model r st' hc
  | none =>
    cases hd : dispatch_model provider model (preprocess_text text context) with
    | error msg =>
      have hfalse : (generate_embedding provider e text model context true st).1.success
          = false := by
        simp [generate_embedding, hc, hd]
      rw [hfalse] at h
      exact absurd h (by simp)
    | ok emb =>
      simp only [generate_embedding, hc, hd, if_true]
      exact get_cached_after_cache text model _ _

/-- C9.  When the first `generate_embedding` call for `(text, model)` with
`use_cache = true` succeeds, the second call returns the *same*
`EmbeddingResult` (hence a bit-identical embedding vector) and leaves the
state unchanged — in particular `provider_calls` does not grow, so it was
served from the cache without a provider call — and its recorded
`processing_time` is ≤ the first call's (they are equal: the memory tier
returns the stored result verbatim). -/
theorem C9_cache_idempotence (provider : Provider) (e1 e2 : ℚ) (text : String)
    (model : EmbeddingModel) (context : Option Context) (st : GenState) :
    (generate_embedding provider e1 text model context true st).1.success = true →
    (generate_embedding provider e2 text model context true
        (generate_embedding provider e1 text model context true st).2)
      = ((generate_embedding provider e1 text model context true st).1,
         (generate_embedding provider e1 text model context true st).2) ∧
    (∀ p, (generate_embedding provider e1 text model context true st).1.processing_time
        = some p →
      ∃ q, (generate_embedding provider e2 text model context true
            (generate_embedding provider e1 text model context true st).2).1.processing_time
          = some q ∧ q ≤ p) := by
  intro h
  have hk := first_call_cached provider e1 text model context st h
  have hsecond := generate_of_cached provider e2 text model context
    (generate_embedding provider e1 text model context true st).2
    (generate_embedding provider e1 text model context true st).1
    (generate_embedding provider e1 text model context true st).2 hk
  refine ⟨hsecond, ?_⟩
  intro p hp
  exact ⟨p, by rw [hsecond]; exact hp, le_refl p⟩

/-- C9 witness: with a constant provider and a fresh state, the second
call for `"hello"` returns exactly the first call's result and state. -/
theorem C9_witness :
    (generate_embedding constProvider 2 "hello" .gemini none true
        (generate_embedding constProvider 1 "hello" .gemini none true {}).2)
      = ((generate_embedding constProvider 1 "hello" .gemini none true {}).1,
         (generate_embedding constProvider 1 "hello" .gemini none true {}).2) :=
  (C9_cache_idempotence constProvider 1 2 "hello" .gemini none {} rfl).1

/-! Helper lemmas for normalization. -/

lemma sumSq_map_div (v : List ℚ) (c : ℚ) :
    sumSq (v.map (· / c)) = sumSq v / (c * c) := by
  induction v with
  | nil => simp [sumSq]
  | cons x xs ih =>
    simp only [sumSq, List.map_cons, List.sum_cons] at ih ⊢
    rw [div_mul_div_comm, ih, div_add_div_same]

lemma sumSq_eq_zero_of_forall_zero (v : List ℚ) (h : ∀ x ∈ v, x = 0) :
    sumSq v = 0 := by
  induction v with
  | nil => simp [sumSq]
  | cons x xs ih =>
    simp only [sumSq, List.map_cons, List.sum_cons] at ih ⊢
    rw [h x (List.mem_cons_self x xs), ih fun y hy => h y (List.mem_cons_of_mem x hy)]
    ring

/-- C10.  Normalization is total: for any square-root function behaving
like the norm computation's square root on this vector (its square is the
sum of squares and it is nonnegative), `_normalize_embedding` preserves
the dimension, returns a zero vector unchanged (no division by zero), and
when the norm is positive — equivalently `0 < Σ xᵢ²` — returns the vector
scaled by the reciprocal norm, whose sum of squares is exactly 1 (unit L2
norm). -/
theorem C10_normalize_total (sq : ℚ → ℚ) (v : List ℚ)
    (hsq : sq (sumSq v) * sq (sumSq v) = sumSq v)
    (hnn : 0 ≤ sq (sumSq v)) :
    (normalize_embedding sq v).length = v.length ∧
    ((∀ x ∈ v, x = 0) → normalize_embedding sq v = v) ∧
    (0 < sumSq v →
      normalize_embedding sq v = v.map (· / sq (sumSq v)) ∧
      sumSq (normalize_embedding sq v) = 1) := by
  refine ⟨?_, ?_, ?_⟩
  · simp only [normalize_embedding]
    split_ifs <;> simp
  · intro hz
    have h0 : sumSq v = 0 := sumSq_eq_zero_of_forall_zero v hz
    have hsq0 : sq (sumSq v) = 0 := by
      rw [h0] at hsq ⊢
      exact mul_self_eq_zero.mp hsq
    simp only [normalize_embedding, hsq0]
    simp
  · intro hpos
    have hne : sq (sumSq v) ≠ 0 := by
      intro h0
      rw [h0, mul_zero] at hsq
      rw [← hsq] at hpos
      exact lt_irrefl 0 hpos
    have hgt : 0 < sq (sumSq v) := lt_of_le_of_ne hnn (Ne.symm hne)
    simp only [normalize_embedding, if_pos hgt]
    refine ⟨trivial, ?_⟩
    rw [sumSq_map_div, hsq, div_self (ne_of_gt hpos)]

/-- C10 witness: `[3, 4]` with a square root correct at 25 normalizes to
`[3/5, 4/5]`, of length 2 and unit sum of squares. -/
theorem C10_witness :
    (normalize_embedding sq35 [3, 4]).length = 2 ∧
    normalize_embedding sq35 [3, 4] = [3/5, 4/5] ∧
    sumSq (normalize_embedding sq35 [3, 4]) = 1 := by
  have hsq : sq35 (sumSq [3, 4]) * sq35 (sumSq [3, 4]) = sumSq [3, 4] := by
    norm_num [sumSq, sq35]
  have hnn : 0 ≤ sq35 (sumSq [3, 4]) := by
    norm_num [sumSq, sq35]
  have hpos : 0 < sumSq [(3 : ℚ), 4] := by norm_num [sumSq]
  have h := C10_normalize_total sq35 [3, 4] hsq hnn
  refine ⟨(h.1).trans rfl, ?_, (h.2.2 hpos).2⟩
  rw [(h.2.2 hpos).1]
  norm_num [sq35, sumSq]

/-! Justification of the squared-norm encoding of the magnitude check:
for a nonnegative rational `q`, the window `0.1 < √q < 10` over the reals
is exactly the window `1/100 < q < 100` used by `magnitudeOk`. -/

lemma sqrt_window_iff (q : ℚ) :
    ((0.1 : ℝ) < Real.sqrt (q : ℝ) ∧ Real.sqrt (q : ℝ) < 10) ↔
      ((1 : ℚ)/100 < q ∧ q < 100) := by
  rw [Real.lt_sqrt (by norm_num : (0 : ℝ) ≤ 0.1),
    Real.sqrt_lt' (by norm_num : (0 : ℝ) < 10),
    show ((0.1 : ℝ)) ^ 2 = (((1 : ℚ)/100 : ℚ) : ℝ) by norm_num,
    show ((10 : ℝ)) ^ 2 = ((100 : ℚ) : ℝ) by norm_num,
    Rat.cast_lt, Rat.cast_lt]

lemma magnitudeOk_iff_sqrt (v : Vec) (hfin : allFinite v = true) :
    magnitudeOk v = true ↔
      ((0.1 : ℝ) < Real.sqrt ((sumSq (finPart v) : ℚ) : ℝ) ∧
        Real.sqrt ((sumSq (finPart v) : ℚ) : ℝ) < 10) := by
  rw [magnitudeOk, hfin, Bool.true_and, decide_eq_true_eq, sqrt_window_iff]

end Cryptique
